import Mathlib

/-
Verification of the calendar-utilities module in src/core-js-dates-tasks.js.

Modelling conventions for the shallow embedding:
- A point in time is an integer count of milliseconds since the epoch
  (1970-01-01T00:00:00Z), as in the JS Date object.
- Calendar (year, month, day) triples use the proleptic Gregorian calendar,
  which is what the JS Date object implements.  daysFromCivil and
  civilFromDays below are the standard civil-calendar conversions and model
  the field accessors and the field-overflow normalization of the Date
  constructor.
- All integer divisions in this file have positive divisors, for which the
  Lean operators / and % on Int (Euclidean division) coincide with floor
  division, matching the JS semantics of these computations.
- The local time zone of the runtime is modelled as UTC (offset 0, no DST),
  so local field accessors such as getDay and getFullYear agree with the
  UTC ones.  The source mixes local and UTC accessors; under this
  convention they denote the same fields.
- JS strings are Lean String values; the template-literal coercion of a
  number is toString.
- The truncating JS remainder operator is Int.tmod.
- Loops with data-dependent exit conditions are embedded with explicit
  fuel; theorems about them are stated for every fuel value.
-/

namespace CoreJsDates

/-- Day count from the epoch to the Gregorian date (y, m, d), month 1-12.
Models the timestamp (in days) of a Date holding that calendar date at
midnight. -/
def daysFromCivil (y m d : Int) : Int :=
  let y2 := if m ≤ 2 then y - 1 else y
  let era := y2 / 400
  let yoe := y2 - era * 400
  let mp := if 2 < m then m - 3 else m + 9
  let doy := (153 * mp + 2) / 5 + d - 1
  let doe := yoe * 365 + yoe / 4 - yoe / 100 + doy
  era * 146097 + doe - 719468

/-- Inverse of daysFromCivil: the Gregorian date (y, m, d), month 1-12, of a
day number.  Models reading the calendar fields of a Date value. -/
def civilFromDays (z0 : Int) : Int × Int × Int :=
  let z := z0 + 719468
  let era := z / 146097
  let doe := z - era * 146097
  let yoe := (doe - doe / 1460 + doe / 36524 - doe / 146096) / 365
  let y := yoe + era * 400
  let doy := doe - (365 * yoe + yoe / 4 - yoe / 100)
  let mp := (5 * doy + 2) / 153
  let d := doy - (153 * mp + 2) / 5 + 1
  let m := if mp < 10 then mp + 3 else mp - 9
  (if m ≤ 2 then y + 1 else y, m, d)

/-- Day of week of the Gregorian date (y, m, d), month 1-12, with
0 = Sunday .. 6 = Saturday, as returned by getDay and getUTCDay. -/
def dayOfWeek (y m d : Int) : Int :=
  (daysFromCivil y m d + 4) % 7

/-- Day of week of a millisecond timestamp, as returned by getUTCDay:
0 = Sunday .. 6 = Saturday. -/
def jsUTCDay (t : Int) : Int := (t / 86400000 + 4) % 7

/-- The zero-padding step shared by getTime and formatDate in the source:
each of them turns a field value v into the string 0v when v is less than 9
(source condition v lt 9, an off-by-one) and leaves it unpadded otherwise. -/
def timeField (v : Nat) : String :=
  if v < 9 then "0" ++ toString v else toString v

/-- Embedding of getTime (source lines 35-50).  The argument is the triple
of local hour, minute and second fields of the input date.  Each field is
put through the padding step (inlined three times in the source) and the
fields are joined with colons. -/
def getTime (hours0 minutes0 secunds0 : Nat) : String :=
  timeField hours0 ++ ":" ++ timeField minutes0 ++ ":" ++ timeField secunds0

/-- Embedding of getNextFriday (source lines 89-101) on a millisecond
timestamp: day is the UTC day of week; when day is below 5 the source adds
5 - day days, otherwise 7 - day + 5 days, in milliseconds. -/
def getNextFriday (t : Int) : Int :=
  t + 86400000 * (if jsUTCDay t < 5 then 5 - jsUTCDay t else 7 - jsUTCDay t + 5)

/-- The static 12-entry table of getCountDaysInMonth (source line 115). -/
def daysInMonth : List Int := [31, 28, 31, 30, 31, 30, 31, 31, 30, 31, 30, 31]

/-- JS array indexing: arr[i] is undefined (here none) outside the bounds,
including the negative index produced by month - 1 when month is 0. -/
def jsArrayGet (l : List Int) (i : Int) : Option Int :=
  if 0 ≤ i then l.get? i.toNat else none

/-- Embedding of getCountDaysInMonth (source lines 114-120): 29 when the
month equals 2 and the year is divisible by 4 (truncating JS remainder),
otherwise the table entry at month - 1. -/
def getCountDaysInMonth (month year : Int) : Option Int :=
  if month = 2 ∧ year.tmod 4 = 0 then some 29
  else jsArrayGet daysInMonth (month - 1)

/-- Embedding of getCountDaysOnPeriod (source lines 133-144) on millisecond
timestamps.  The JS number division is exact rational division here; the
two toUTCString calls in the source discard their results and are no-ops. -/
def getCountDaysOnPeriod (dateStart dateEnd : Int) : ℚ :=
  ((dateEnd - dateStart : Int) : ℚ) / (1000 * 60 * 60 * 24) + 1

/-- Embedding of formatDate (source lines 186-208).  The arguments are the
UTC field values of the parsed input string: full year, 0-based month, day
of month, hour, minute, second.  AM/PM from hour at least 12; 12 is
subtracted only when the hour exceeds 12 (so hour 0 stays 0); minute and
second go through the same padding step as getTime; month and day are not
padded. -/
def formatDate (year month0 day hours0 minutes0 secunds0 : Nat) : String :=
  toString (month0 + 1) ++ "/" ++ toString day ++ "/" ++ toString year ++ ", " ++
    toString (if 12 < hours0 then hours0 - 12 else hours0) ++ ":" ++
    timeField minutes0 ++ ":" ++ timeField secunds0 ++ " " ++
    (if 12 ≤ hours0 then "PM" else "AM")

/-- Embedding of getWeekNumberByDate (source lines 249-254) on the calendar
date (y, m, d) of the input (midnight local time, local modelled as UTC):
the source builds the first of January of the same year, takes the
inclusive day count via getCountDaysOnPeriod, divides by 7 and applies
Math.ceil. -/
def getWeekNumberByDate (y m d : Int) : Int :=
  ⌈getCountDaysOnPeriod (86400000 * daysFromCivil y 1 1)
      (86400000 * daysFromCivil y m d) / 7⌉

/-- Embedding of the search loop of getNextFridayThe13th (source lines
267-284), with explicit fuel.  The state is the 0-based month variable and
the year variable of the source; the input day of month is never read by
the source.  The probe new Date(year, month, 13) normalizes a month value
of 12 to January of the next year, hence the year + month / 12 and
month % 12 in the probe and in the returned date.  When the probe is not a
Friday, the source increments month while month lt 12 and otherwise resets
month to 0 and increments the year. -/
def getNextFridayThe13th : Nat → Int → Int → Option (Int × Int)
  | 0, _, _ => none
  | fuel + 1, year, month =>
    if dayOfWeek (year + month / 12) (month % 12 + 1) 13 = 5 then
      some (year + month / 12, month % 12)
    else if month < 12 then getNextFridayThe13th fuel year (month + 1)
    else getNextFridayThe13th fuel (year + 1) 0

/-- The same search loop instrumented for the control-flow claim: the Bool
accumulator records whether the final else branch (month reset, year
increment) has executed, and the Int accumulator records the largest month
value the loop variable has reached. -/
def fridayThe13thFlagged : Nat → Int → Int → Bool → Int → Option (Int × Int) × Bool × Int
  | 0, _, month, elseSeen, maxM => (none, elseSeen, max maxM month)
  | fuel + 1, year, month, elseSeen, maxM =>
    if dayOfWeek (year + month / 12) (month % 12 + 1) 13 = 5 then
      (some (year + month / 12, month % 12), elseSeen, max maxM month)
    else if month < 12 then
      fridayThe13thFlagged fuel year (month + 1) elseSeen (max maxM month)
    else fridayThe13thFlagged fuel (year + 1) 0 true (max maxM month)

/-- The element formatting inlined in the loop body of getWorkSchedule
(source lines 357-368): the day is padded to two digits with a day lt 10
test, but the month padding tests the 0-based month against 10 before
printing month + 1, so the 0-based month 9 (October) is printed as the
three characters 010. -/
def formatDDMMYYYY (date : Int) : String :=
  let c := civilFromDays date
  let year := c.1
  let month := c.2.1 - 1
  let day := c.2.2
  (if day < 10 then "0" ++ toString day else toString day) ++ "-" ++
    (if month < 10 then "0" ++ toString (month + 1) else toString (month + 1)) ++ "-" ++
    toString year

/-- The inner for loop of getWorkSchedule: countWorkDays passes, each of
which, while the date has not passed the end date, appends the formatted
date and advances the date by one day.  Day numbers stand for the UTC
midnight timestamps the source manipulates. -/
def wsInner : Nat → Int → Int → List String × Int
  | 0, date, _ => ([], date)
  | i + 1, date, endDate =>
    if 0 ≤ endDate - date then
      let rest := wsInner i (date + 1) endDate
      (formatDDMMYYYY date :: rest.1, rest.2)
    else wsInner i date endDate

/-- The outer while loop of getWorkSchedule: while the date has not passed
the end date, run the inner work-day loop and then skip countOffDays days. -/
def wsOuter : Nat → Int → Int → Nat → Nat → List String
  | 0, _, _, _, _ => []
  | fuel + 1, date, endDate, countWorkDays, countOffDays =>
    if 0 ≤ endDate - date then
      let inner := wsInner countWorkDays date endDate
      inner.1 ++ wsOuter fuel (inner.2 + (countOffDays : Int)) endDate countWorkDays countOffDays
    else []

/-- Embedding of getWorkSchedule (source lines 346-378), with fuel for the
while loop.  The six integer arguments are the day, month and year
components obtained by splitting the DD-MM-YYYY period strings on the
hyphen, exactly the values the source feeds to Date.UTC (with month - 1 as
the 0-based constructor month, which daysFromCivil absorbs by taking the
1-based month). -/
def getWorkSchedule (fuel : Nat)
    (startDay startMonth startYear endDay endMonth endYear : Int)
    (countWorkDays countOffDays : Nat) : List String :=
  wsOuter fuel (daysFromCivil startYear startMonth startDay)
    (daysFromCivil endYear endMonth endDay) countWorkDays countOffDays

/-- Embedding of isLeapYear (source lines 392-395): the year of the input
date is divisible by 4, via the truncating JS remainder. -/
def isLeapYear (year : Int) : Bool := year.tmod 4 == 0

/-
Helper notions and lemmas for the Friday-the-13th claims.  A month is
identified with its absolute index 12 * year + month0 (month0 in 0..11);
the probe of the source loop at state (year, month) tests exactly the
month of index 12 * year + month, for every month value, thanks to the
constructor normalization.
-/

/-- The month of absolute index k (year k / 12, 0-based month k % 12) has
its 13th on a Friday. -/
def isF13 (k : Int) : Prop := dayOfWeek (k / 12) (k % 12 + 1) 13 = 5

lemma idx_div (y m : Int) :
    (12 * y + m) / 12 = y + m / 12 ∧ (12 * y + m) % 12 = m % 12 := by
  constructor <;> omega

lemma isF13_iff (y m : Int) :
    isF13 (12 * y + m) ↔ dayOfWeek (y + m / 12) (m % 12 + 1) 13 = 5 := by
  unfold isF13
  rw [(idx_div y m).1, (idx_div y m).2]

lemma norm_idx (y m : Int) : 12 * (y + m / 12) + m % 12 = 12 * y + m := by
  omega

lemma idx_canon (a b : Int) (h1 : 0 ≤ b) (h2 : b < 12) :
    (12 * a + b) / 12 = a ∧ (12 * a + b) % 12 = b := by
  constructor <;> omega

/-- Soundness and minimality of the search loop: whenever it returns a
date, that date is a Friday the 13th, its month index is at least the
starting index, and no month strictly between the start and the result has
its 13th on a Friday. -/
lemma fridaySearch_spec (fuel : Nat) : ∀ (y m ry rm : Int),
    0 ≤ m → m ≤ 12 → getNextFridayThe13th fuel y m = some (ry, rm) →
    0 ≤ rm ∧ rm < 12 ∧ isF13 (12 * ry + rm) ∧ 12 * y + m ≤ 12 * ry + rm ∧
      ∀ k : Int, 12 * y + m ≤ k → k < 12 * ry + rm → ¬ isF13 k := by
  induction fuel with
  | zero =>
    intro y m ry rm _ _ h
    simp [getNextFridayThe13th] at h
  | succ f ih =>
    intro y m ry rm h0 h12 h
    simp only [getNextFridayThe13th] at h
    split_ifs at h with hg hm
    · simp only [Option.some.injEq, Prod.mk.injEq] at h
      obtain ⟨e1, e2⟩ := h
      subst e1
      subst e2
      have hmod0 : 0 ≤ m % 12 := Int.emod_nonneg m (by norm_num)
      have hmod1 : m % 12 < 12 := Int.emod_lt_of_pos m (by norm_num)
      refine ⟨hmod0, hmod1, ?_, ?_, ?_⟩
      · rw [norm_idx y m]
        exact (isF13_iff y m).mpr hg
      · rw [norm_idx y m]
      · intro k hk1 hk2
        rw [norm_idx y m] at hk2
        omega
    · obtain ⟨a1, a2, a3, a4, a5⟩ := ih y (m + 1) ry rm (by omega) (by omega) h
      refine ⟨a1, a2, a3, by omega, ?_⟩
      intro k hk1 hk2
      rcases eq_or_lt_of_le hk1 with heq | hlt
      · rw [← heq]
        intro hf
        exact hg ((isF13_iff y m).mp hf)
      · exact a5 k (by omega) hk2
    · have hm12 : m = 12 := by omega
      subst hm12
      obtain ⟨a1, a2, a3, a4, a5⟩ := ih (y + 1) 0 ry rm (by omega) (by omega) h
      refine ⟨a1, a2, a3, by omega, ?_⟩
      intro k hk1 hk2
      exact a5 k (by omega) hk2

lemma flagged_max_le (fuel : Nat) : ∀ (y m : Int) (b : Bool) (mm : Int),
    0 ≤ m → m ≤ 12 → mm ≤ 12 → (fridayThe13thFlagged fuel y m b mm).2.2 ≤ 12 := by
  induction fuel with
  | zero =>
    intro y m b mm h0 h12 hmm
    show max mm m ≤ 12
    omega
  | succ f ih =>
    intro y m b mm h0 h12 hmm
    simp only [fridayThe13thFlagged]
    split_ifs with hg hm
    · show max mm m ≤ 12
      omega
    · exact ih y (m + 1) b (max mm m) (by omega) (by omega) (by omega)
    · exact ih (y + 1) 0 true (max mm m) (by omega) (by norm_num) (by omega)

/-
Claim theorems.
-/

/-- C1 counterexample: the claim says getNextFridayThe13th returns the
earliest qualifying date not before the input.  It is false: on the input
2023-10-14 the search starts at October 2023 (year 2023, 0-based month 9,
the day 14 is never read by the source) and immediately returns
October 13, 2023, a Friday that lies strictly before the input date. -/
theorem c1_counterexample :
    getNextFridayThe13th 30 2023 9 = some (2023, 9) ∧
    dayOfWeek 2023 10 13 = 5 ∧
    daysFromCivil 2023 10 13 < daysFromCivil 2023 10 14 := by
  decide

/-- C1 (amended): whenever the search loop returns a date, that date is
the 13th of the earliest month with a Friday 13th among the months from
the input month and year onward, regardless of the input day of month; in
particular, when the input month itself has its 13th on a Friday the
returned date is the 13th of the input month, which equals the input when
the input is that 13th and precedes it when the input day is later. -/
theorem c1_nextFriday13_amended (fuel : Nat) (y m ry rm : Int)
    (h0 : 0 ≤ m) (h11 : m ≤ 11)
    (h : getNextFridayThe13th fuel y m = some (ry, rm)) :
    0 ≤ rm ∧ rm < 12 ∧ dayOfWeek ry (rm + 1) 13 = 5 ∧
    12 * y + m ≤ 12 * ry + rm ∧
    (∀ k : Int, 12 * y + m ≤ k → k < 12 * ry + rm → ¬ isF13 k) ∧
    (dayOfWeek y (m + 1) 13 = 5 → ry = y ∧ rm = m) := by
  obtain ⟨a1, a2, a3, a4, a5⟩ := fridaySearch_spec fuel y m ry rm h0 (by omega) h
  refine ⟨a1, a2, ?_, a4, a5, ?_⟩
  · unfold isF13 at a3
    rwa [(idx_canon ry rm a1 a2).1, (idx_canon ry rm a1 a2).2] at a3
  · intro hstart
    have hf : isF13 (12 * y + m) := by
      unfold isF13
      rw [(idx_canon y m h0 (by omega)).1, (idx_canon y m h0 (by omega)).2]
      exact hstart
    have heq : 12 * ry + rm = 12 * y + m := by
      by_contra hne
      exact a5 (12 * y + m) le_rfl (by omega) hf
    constructor <;> omega

/-- C1 witness: from January 2024 the loop returns September 2024, whose
13th is indeed a Friday. -/
theorem c1_witness : dayOfWeek 2024 (8 + 1) 13 = 5 :=
  (c1_nextFriday13_amended 30 2024 0 2024 8 (by decide) (by decide)
    (by decide)).2.2.1

/-- C2: the claim says formatDate displays the UTC hour 0 as 12.  The code
does not: the source only subtracts 12 when the hour exceeds 12, so hour 0
is printed as 0.  On the input 2024-02-01T00:05:07.000Z the output is
2/1/2024, 0:05:07 AM, not the claimed 2/1/2024, 12:05:07 AM. -/
theorem c2_formatDate_hour0 :
    formatDate 2024 1 1 0 5 7 = "2/1/2024, 0:05:07 AM" ∧
    formatDate 2024 1 1 0 5 7 ≠ "2/1/2024, 12:05:07 AM" := by
  decide

/-- C3: the cycle semantics and the worked example of the claim hold (the
first conjunct is exactly the example of the claim), but the claimed
two-digit month format does not: for the one-day October period from
13-10-2023 to 13-10-2023 the source prints the month as the three
characters 010, because the month padding tests the 0-based month against
10 and then prints month + 1. -/
theorem c3_workSchedule_check :
    getWorkSchedule 10 1 1 2024 15 1 2024 1 3 =
      ["01-01-2024", "05-01-2024", "09-01-2024", "13-01-2024"] ∧
    getWorkSchedule 3 13 10 2023 13 10 2023 1 1 = ["13-010-2023"] := by
  decide

/-- C4: for every input timestamp, getNextFriday lands on a UTC Friday,
is strictly after the input, preserves the time of day (the residue modulo
86400000 ms), and moves a Friday input exactly 7 days forward. -/
theorem c4_getNextFriday (t : Int) :
    jsUTCDay (getNextFriday t) = 5 ∧ t < getNextFriday t ∧
    getNextFriday t % 86400000 = t % 86400000 ∧
    (jsUTCDay t = 5 → getNextFriday t = t + 7 * 86400000) := by
  unfold getNextFriday jsUTCDay
  refine ⟨?_, ?_, ?_, ?_⟩
  · split_ifs with h <;> omega
  · split_ifs with h <;> omega
  · split_ifs with h <;> omega
  · intro h5
    split_ifs with h <;> omega

/-- C4 witness: the timestamp 86400000 (1970-01-02) is a Friday and is
mapped exactly 7 days forward. -/
theorem c4_witness : getNextFriday 86400000 = 86400000 + 7 * 86400000 :=
  (c4_getNextFriday 86400000).2.2.2 (by decide)

/-- C5: in getTime and in the minute and second fields of formatDate, a
field is zero-padded (two characters starting with the digit 0) exactly
when its value is strictly below 9: values 0 through 8 gain a leading
zero, the value 9 is rendered as the single character 9. -/
theorem c5_padding_rule :
    (∀ v : Fin 60,
      ((timeField v.val).length = 2 ∧ (timeField v.val).front = '0') ↔ v.val < 9) ∧
    (∀ h m s : Nat,
      getTime h m s = timeField h ++ ":" ++ timeField m ++ ":" ++ timeField s) ∧
    (∀ y mo d hr mi s : Nat, formatDate y mo d hr mi s =
      toString (mo + 1) ++ "/" ++ toString d ++ "/" ++ toString y ++ ", " ++
        toString (if 12 < hr then hr - 12 else hr) ++ ":" ++
        timeField mi ++ ":" ++ timeField s ++ " " ++
        (if 12 ≤ hr then "PM" else "AM")) := by
  refine ⟨by decide, fun h m s => rfl, fun y mo d hr mi s => rfl⟩

/-- C6: isLeapYear holds exactly when the year is divisible by 4 (the
truncating JS remainder, with no century or 400-year exception), and
getCountDaysInMonth applied to February returns 29 under exactly the same
condition, so the two functions agree on the simplified rule for every
year; in particular both treat 1900 as a leap year. -/
theorem c6_leapYear_agreement :
    (∀ year : Int,
      (isLeapYear year = true ↔ year.tmod 4 = 0) ∧
      (getCountDaysInMonth 2 year = some 29 ↔ year.tmod 4 = 0) ∧
      (isLeapYear year = true ↔ getCountDaysInMonth 2 year = some 29)) ∧
    isLeapYear 1900 = true ∧ getCountDaysInMonth 2 1900 = some 29 := by
  refine ⟨?_, by decide, by decide⟩
  intro year
  by_cases h : year.tmod 4 = 0 <;>
    simp [isLeapYear, getCountDaysInMonth, jsArrayGet, daysInMonth, h]

/-- C7: getCountDaysOnPeriod equals the millisecond difference divided by
86400000 plus 1; it returns 1 when the endpoints coincide; and on
day-aligned timestamps it is the inclusive day count of the period. -/
theorem c7_countDaysOnPeriod :
    (∀ t1 t2 : Int, t1 ≤ t2 →
      getCountDaysOnPeriod t1 t2 = ((t2 : ℚ) - (t1 : ℚ)) / 86400000 + 1) ∧
    (∀ t : Int, getCountDaysOnPeriod t t = 1) ∧
    (∀ d1 d2 : Int, d1 ≤ d2 →
      getCountDaysOnPeriod (86400000 * d1) (86400000 * d2) =
        (d2 : ℚ) - (d1 : ℚ) + 1) := by
  refine ⟨fun t1 t2 _ => ?_, fun t => ?_, fun d1 d2 _ => ?_⟩
  · unfold getCountDaysOnPeriod
    push_cast
    norm_num
  · unfold getCountDaysOnPeriod
    simp
  · unfold getCountDaysOnPeriod
    push_cast
    field_simp
    ring

/-- C7 witness: one day apart, day-aligned, gives the inclusive count 2. -/
theorem c7_witness :
    getCountDaysOnPeriod (86400000 * 0) (86400000 * 1) = (1 : ℚ) - (0 : ℚ) + 1 :=
  c7_countDaysOnPeriod.2.2 0 1 (by decide)

/-- C8: getWeekNumberByDate is the ceiling of the inclusive day count
since January 1 of the same year (obtained through getCountDaysOnPeriod)
divided by 7, so January 1 is in week 1; and it implements no ISO-8601
Thursday or Monday rule: January 6, 2025 is a Monday (the start of ISO
week 2) yet receives the same week number 1 as January 5. -/
theorem c8_weekNumber :
    (∀ y m d : Int, getWeekNumberByDate y m d =
      ⌈((daysFromCivil y m d - daysFromCivil y 1 1 + 1 : Int) : ℚ) / 7⌉) ∧
    getWeekNumberByDate 2025 1 1 = 1 ∧
    getWeekNumberByDate 2025 1 5 = 1 ∧
    getWeekNumberByDate 2025 1 6 = 1 ∧
    dayOfWeek 2025 1 6 = 1 := by
  have key : ∀ y m d : Int, getWeekNumberByDate y m d =
      ⌈((daysFromCivil y m d - daysFromCivil y 1 1 + 1 : Int) : ℚ) / 7⌉ := by
    intro y m d
    unfold getWeekNumberByDate getCountDaysOnPeriod
    congr 1
    push_cast
    field_simp
    ring
  refine ⟨key, ?_, ?_, ?_, by decide⟩
  · rw [key, show (daysFromCivil 2025 1 1 - daysFromCivil 2025 1 1 + 1 : Int) = 1 by decide]
    rw [Int.ceil_eq_iff]; norm_num
  · rw [key, show (daysFromCivil 2025 1 5 - daysFromCivil 2025 1 1 + 1 : Int) = 5 by decide]
    rw [Int.ceil_eq_iff]; norm_num
  · rw [key, show (daysFromCivil 2025 1 6 - daysFromCivil 2025 1 1 + 1 : Int) = 6 by decide]
    rw [Int.ceil_eq_iff]; norm_num

/-- C9 counterexample: the claim says the else branch (month reset to 0,
year incremented) is unreachable and the month index grows without bound.
Starting the search at August 2001 (0-based month 7), no 13th from August
2001 through the normalized probe of month value 12 (January 13, 2002)
falls on a Friday, so the else branch executes (flag true) and the month
variable peaks at exactly 12 before the result September 13, 2002. -/
theorem c9_counterexample :
    fridayThe13thFlagged 20 2001 7 false 0 = (some (2002, 8), true, 12) := by
  decide

/-- C9 (amended): the else branch is reachable, because the increment
branch raises the month variable to 12 (its guard holds at month 11), and
at month value 12 the guard fails, taking the wrap branch; the Date
constructor normalization makes the month-12 probe test January 13 of the
following year.  Consequently the month variable never exceeds 12 instead
of growing without bound: from any start state with month at most 12, the
largest month value reached by the loop is at most 12, for every fuel. -/
theorem c9_amended :
    (fridayThe13thFlagged 20 2001 7 false 0).2.1 = true ∧
    (∀ (fuel : Nat) (y m : Int) (b : Bool) (mm : Int),
      0 ≤ m → m ≤ 12 → mm ≤ 12 → (fridayThe13thFlagged fuel y m b mm).2.2 ≤ 12) := by
  exact ⟨by decide, fun fuel y m b mm h0 h12 hmm => flagged_max_le fuel y m b mm h0 h12 hmm⟩

/-- C9 witness: the month bound instantiated at a concrete run. -/
theorem c9_witness : (fridayThe13thFlagged 5 2030 3 false 0).2.2 ≤ 12 :=
  c9_amended.2 5 2030 3 false 0 (by decide) (by decide) (by decide)

/-- C10: for every month from 1 to 12 and every year, getCountDaysInMonth
is defined and returns one of 28, 29, 30, 31, while the months 0 and 13
index outside the 12-entry table and yield an undefined (none) result. -/
theorem c10_daysInMonth_range (month year : Int)
    (h1 : 1 ≤ month) (h2 : month ≤ 12) :
    (∃ d, getCountDaysInMonth month year = some d ∧
      (d = 28 ∨ d = 29 ∨ d = 30 ∨ d = 31)) ∧
    getCountDaysInMonth 0 year = none ∧
    getCountDaysInMonth 13 year = none := by
  refine ⟨?_, ?_, ?_⟩
  · interval_cases month
    · exact ⟨31, by simp [getCountDaysInMonth, jsArrayGet, daysInMonth], by norm_num⟩
    · by_cases hy : year.tmod 4 = 0
      · exact ⟨29, by simp [getCountDaysInMonth, hy], by norm_num⟩
      · exact ⟨28, by simp [getCountDaysInMonth, hy, jsArrayGet, daysInMonth], by norm_num⟩
    · exact ⟨31, by simp [getCountDaysInMonth, jsArrayGet, daysInMonth], by norm_num⟩
    · exact ⟨30, by simp [getCountDaysInMonth, jsArrayGet, daysInMonth], by norm_num⟩
    · exact ⟨31, by simp [getCountDaysInMonth, jsArrayGet, daysInMonth], by norm_num⟩
    · exact ⟨30, by simp [getCountDaysInMonth, jsArrayGet, daysInMonth], by norm_num⟩
    · exact ⟨31, by simp [getCountDaysInMonth, jsArrayGet, daysInMonth], by norm_num⟩
    · exact ⟨31, by simp [getCountDaysInMonth, jsArrayGet, daysInMonth], by norm_num⟩
    · exact ⟨30, by simp [getCountDaysInMonth, jsArrayGet, daysInMonth], by norm_num⟩
    · exact ⟨31, by simp [getCountDaysInMonth, jsArrayGet, daysInMonth], by norm_num⟩
    · exact ⟨30, by simp [getCountDaysInMonth, jsArrayGet, daysInMonth], by norm_num⟩
    · exact ⟨31, by simp [getCountDaysInMonth, jsArrayGet, daysInMonth], by norm_num⟩
  · simp [getCountDaysInMonth, jsArrayGet]
  · simp [getCountDaysInMonth, jsArrayGet, daysInMonth]

/-- C10 witness: the bounds instantiated at July 2023. -/
theorem c10_witness :
    (∃ d, getCountDaysInMonth 7 2023 = some d ∧
      (d = 28 ∨ d = 29 ∨ d = 30 ∨ d = 31)) ∧
    getCountDaysInMonth 0 2023 = none ∧
    getCountDaysInMonth 13 2023 = none :=
  c10_daysInMonth_range 7 2023 (by decide) (by decide)

end CoreJsDates
